import Mathlib

/-!
Shallow embedding of `src/components/Line.js` (new-train-tracker).

The file models the pure helpers of the `Line` component — station-name
abbreviation, bounds-to-viewbox conversion, distance-based ordering of
(train, route) pairs, closest-station lookup, the relative-style choice —
and the branch structure of the component's render output.

Numbers: JavaScript arithmetic on the inputs involved here (coordinates,
bounds) is modelled over an arbitrary `LinearOrderedCommRing` so the
theorems cover ℚ and ℝ readings of the coordinates; concrete witnesses
instantiate it at ℤ.  The source compares `Math.sqrt(x ** 2 + y ** 2)`
values; the square root is strictly monotone on nonnegative reals, so
every comparison (and every test against 0) made by the source coincides
with the same comparison of the squared norms used here.
-/

namespace LineJs

variable {α : Type} [LinearOrderedCommRing α]

/-- Screen position of a station, the `{x, y}` records of `stationPositions`. -/
structure Point (α : Type) where
  x : α
  y : α
deriving DecidableEq

/-- The bounds rectangle destructured by `renderViewboxForBounds` (Line.js 15). -/
structure Bounds (α : Type) where
  top : α
  bottom : α
  left : α
  right : α
deriving DecidableEq

/-- The fields of a train object that `Line.js` reads: `train.label`
(list key), `train.stationId` (position lookup). -/
structure Train where
  label : String
  routeId : String
  stationId : String
deriving DecidableEq

/-- One element of `trainRoutePairs`; the route is only passed through to
the `Train` marker, so it is modelled by its identifier. -/
structure TrainRoutePair where
  train : Train
  route : String
deriving DecidableEq

/-- The `stationPositions` object, a mapping from station id to position;
modelled as an association list in enumeration (insertion) order, which is
the order `Object.entries` yields for string keys. -/
abbrev StationPositions (α : Type) := List (String × Point α)

/-- Squared Euclidean norm of a position.  The source computes
`Math.sqrt(x ** 2 + y ** 2)` (Line.js 33 and 46) and only ever compares
the results or tests them against 0, so the strictly monotone square root
is dropped and the squared norm is used as the distance key throughout. -/
def sqDist (p : Point α) : α := p.x ^ 2 + p.y ^ 2

/-- First-occurrence substring replacement: the semantics of JavaScript
`String.prototype.replace` with a string (non-regexp) pattern.  Only the
leftmost occurrence of `pat` is replaced by `repl`; a string containing
no occurrence is returned unchanged. -/
def replaceFirst (pat repl : List Char) : List Char → List Char
  | [] => if pat.isPrefixOf ([] : List Char) then repl else []
  | c :: rest =>
    if pat.isPrefixOf (c :: rest) then repl ++ (c :: rest).drop pat.length
    else c :: replaceFirst pat repl rest

/-- String wrapper for `replaceFirst`. -/
def replaceFirstStr (pat repl s : String) : String :=
  ⟨replaceFirst pat.data repl.data s.data⟩

/-- Models `abbreviateStationName` (Line.js 8-12): three chained
first-occurrence replacements, applied in source order. -/
def abbreviateStationName (station : String) : String :=
  replaceFirstStr "Heath Street" "Heath"
    (replaceFirstStr "Hynes Convention Center" "Hynes"
      (replaceFirstStr "Boston College" "B.C." station))

/-- Occurrence test: `occursIn pat s = true` iff `pat` occurs as a
contiguous substring of `s`. -/
def occursIn (pat : List Char) : List Char → Bool
  | [] => pat.isPrefixOf ([] : List Char)
  | c :: rest => pat.isPrefixOf (c :: rest) || occursIn pat rest

/-- A name containing none of the three replacement patterns of
`abbreviateStationName`. -/
def mentionsNoPattern (s : String) : Prop :=
  occursIn "Boston College".data s.data = false ∧
  occursIn "Hynes Convention Center".data s.data = false ∧
  occursIn "Heath Street".data s.data = false

instance (s : String) : Decidable (mentionsNoPattern s) :=
  inferInstanceAs (Decidable (_ ∧ _ ∧ _))

/-- The four numeric components of the viewbox computed by
`renderViewboxForBounds` (Line.js 14-24); the source interpolates them
into the string `"minX minY width height"`. -/
structure Viewbox (α : Type) where
  minX : α
  minY : α
  width : α
  height : α
deriving DecidableEq

/-- Models `renderViewboxForBounds` (Line.js 14-24) with its hard-coded
paddings `paddingTop = 5`, `paddingBottom = 10`, `paddingX = 50`. -/
def renderViewboxForBounds (bounds : Bounds α) : Viewbox α :=
  let paddingTop : α := 5
  let paddingBottom : α := 10
  let paddingX : α := 50
  { minX := bounds.left - paddingX
    minY := bounds.top - paddingTop
    width := bounds.right - bounds.left + paddingX * 2
    height := bounds.bottom - bounds.top + paddingTop + paddingBottom }

/-- The options object `{ paddingX: 500, paddingY: 5 }` passed at the call
site Line.js 101-104. -/
structure PaddingOpts (α : Type) where
  paddingX : α
  paddingY : α
deriving DecidableEq

/-- The call `renderViewboxForBounds(bounds, { paddingX: 500, paddingY: 5 })`
(Line.js 101-104): the function declares exactly one parameter, so
JavaScript ignores the extra argument and the body runs on `bounds` alone. -/
def renderViewboxForBoundsCall (bounds : Bounds α) (_opts : PaddingOpts α) : Viewbox α :=
  renderViewboxForBounds bounds

/-- Distance key of a (train, route) pair (Line.js 27-38): the train's
current station is looked up in `stationPositions`; a known station
contributes its (squared) distance from the origin, an unknown one
contributes 0. -/
def pairDistance (stationPositions : StationPositions α) (p : TrainRoutePair) : α :=
  match stationPositions.lookup p.train.stationId with
  | some st => sqDist st
  | none => 0

/-- The ordering induced by the comparator
`(a, b) => distanceMap.get(a) - distanceMap.get(b)` (Line.js 39): `a` may
come before `b` exactly when its distance key is not larger. -/
def byDistance (stationPositions : StationPositions α) : TrainRoutePair → TrainRoutePair → Prop :=
  fun a b => pairDistance stationPositions a ≤ pairDistance stationPositions b

instance (sp : StationPositions α) : DecidableRel (byDistance sp) :=
  fun a b => inferInstanceAs (Decidable (pairDistance sp a ≤ pairDistance sp b))

instance (sp : StationPositions α) : IsTotal TrainRoutePair (byDistance sp) :=
  ⟨fun _ _ => le_total _ _⟩

instance (sp : StationPositions α) : IsTrans TrainRoutePair (byDistance sp) :=
  ⟨fun _ _ _ h h' => le_trans h h'⟩

/-- Models `sortTrainRoutePairsByDistance` (Line.js 26-40).  ECMA-262 specifies
`Array.prototype.sort` as a stable sort (stable since ES2019), and with
the ascending comparator of Line.js 39 its output is the unique ascending
stable reordering of the input; that reordering is produced here by
insertion sort keyed on `pairDistance`, which Mathlib proves sorted,
permuting and stable. -/
def sortTrainRoutePairsByDistance (pairs : List TrainRoutePair)
    (stationPositions : StationPositions α) : List TrainRoutePair :=
  List.insertionSort (byDistance stationPositions) pairs

/-- Contents of the caller's array after `sortTrainRoutePairsByDistance`
returns: `Array.prototype.sort` reorders the array in place and returns
the same array object, so after the call the array referenced by `pairs`
holds the sorted sequence, not the original one. -/
def pairsAfterSortCall (pairs : List TrainRoutePair)
    (stationPositions : StationPositions α) : List TrainRoutePair :=
  sortTrainRoutePairsByDistance pairs stationPositions

/-- One step of the reduce in `findClosestStationToTop` (Line.js 43-56).
The accumulator `{closestId, shortestDistance}` starts from
`{closestId: null, shortestDistance: Infinity}`; `null` and `Infinity`
are modelled by `none`, and `nextDistance < Infinity` holds for every
entry, so a `none` accumulator is always replaced. -/
def closestStep (acc : Option String × Option α) (entry : String × Point α) :
    Option String × Option α :=
  match acc.2 with
  | none => (some entry.1, some (sqDist entry.2))
  | some d => if sqDist entry.2 < d then (some entry.1, some (sqDist entry.2)) else acc

/-- Models `findClosestStationToTop` (Line.js 42-58): a left fold of
`closestStep` over the entries of `stationPositions`, returning the
accumulated id. -/
def findClosestStationToTop (stationPositions : StationPositions α) : Option String :=
  (stationPositions.foldl closestStep (none, none)).1

/-- Reference running minimum over entries, keeping the current best entry
instead of its (id, distance) projection; used to reason about the fold of
`findClosestStationToTop`. -/
def runMinStep (a e : String × Point α) : String × Point α :=
  if sqDist e.2 < sqDist a.2 then e else a

/-- The two possible results of `renderRelativeStyles` (Line.js 60-65):
the style objects `{ width: '100%' }` and `{ height: '100%' }`. -/
inductive RelativeStyle where
  | widthFull
  | heightFull
deriving DecidableEq

/-- JavaScript `>` between possibly-undefined numbers: when either side is
`undefined` it coerces to NaN and the comparison yields false. -/
def jsGt : Option α → Option α → Bool
  | some a, some b => decide (b < a)
  | _, _ => false

/-- Models `renderRelativeStyles` (Line.js 60-65): destructures `width`
and `height` from its argument (each possibly `undefined`) and picks the
`{ width: '100%' }` branch exactly when `width > height`. -/
def renderRelativeStyles (width height : Option α) : RelativeStyle :=
  if jsGt width height then .widthFull else .heightFull

/-- The property access `viewbox.width` at the call site Line.js 189:
`viewbox` there is the interpolated viewbox string, and a string has no
`width` property, so the access yields `undefined`. -/
def viewboxStrWidth (_v : Viewbox α) : Option α := none

/-- The property access `viewbox.height` at Line.js 189: `undefined`, as
for `viewboxStrWidth`. -/
def viewboxStrHeight (_v : Viewbox α) : Option α := none

/-- The relative style of the rendered svg as a function of the bounds:
`renderRelativeStyles(viewbox)` with the string-property accesses of the
call site. -/
def lineSvgRelativeStyle (bounds : Bounds α) : RelativeStyle :=
  renderRelativeStyles (viewboxStrWidth (renderViewboxForBounds bounds))
    (viewboxStrHeight (renderViewboxForBounds bounds))

/-- One `<Train .../>` element produced by `renderTrains` (Line.js 156-165),
restricted to the props computed there from this file's data. -/
structure TrainMarker where
  focusOnMount : Bool
  key : String
  train : Train
  route : String
  alwaysLabelTrain : Bool
deriving DecidableEq

/-- One marker of `renderTrains` (Line.js 156-165), built from a pair and
its index in the sorted sequence:
`focusOnMount = shouldFocusOnFirstTrain && index === 0`. -/
def trainMarkerOf (shouldFocusOnFirstTrain : Bool) (shouldLabelTrain : Train → Bool)
    (ie : ℕ × TrainRoutePair) : TrainMarker :=
  { focusOnMount := shouldFocusOnFirstTrain && decide (ie.1 = 0)
    key := ie.2.train.label
    train := ie.2.train
    route := ie.2.route
    alwaysLabelTrain := shouldLabelTrain ie.2.train }

/-- Models `renderTrains` (Line.js 152-166): the sorted pairs are mapped,
with their index, to train markers. -/
def renderTrains (shouldFocusOnFirstTrain : Bool) (shouldLabelTrain : Train → Bool)
    (pairs : List TrainRoutePair) (stationPositions : StationPositions α) :
    List TrainMarker :=
  (sortTrainRoutePairsByDistance pairs stationPositions).enum.map
    (trainMarkerOf shouldFocusOnFirstTrain shouldLabelTrain)

/-- The `focusOnMount` flag of the marker at position `i` (false past the
end of the list). -/
def focusOnMountAt (markers : List TrainMarker) (i : ℕ) : Bool :=
  (markers.map TrainMarker.focusOnMount).getD i false

/-- The fields of the `line` descriptor that the modelled branches read. -/
structure LineData where
  name : String
  color : String
  colorSecondary : String
deriving DecidableEq

/-- The render output of the `Line` component: either the fallback notice
`<div class="line-pane empty">` holding only the notice text (no `<svg>`
element), or the svg scene with its viewbox, relative style and train
markers.  The `<path>` and station `<g>` children of the scene come from
`prerenderLine` (a different module) and are not modelled, as no claim
inspects them. -/
inductive LineRender (α : Type) where
  | emptyNotice (text : String)
  | svgScene (viewbox : Viewbox α) (relStyle : RelativeStyle) (markers : List TrainMarker)
deriving DecidableEq

/-- The branch structure of the `Line` component (Line.js 168-196): with
zero (train, route) pairs the fallback notice is returned, its wording
special-cased for the line named "Red"; otherwise the svg scene is built
from the viewbox of the two-argument call site, the relative styles of the
viewbox string, and the sorted train markers. -/
def renderLineComponent (line : LineData) (bounds : Bounds α)
    (stationPositions : StationPositions α) (trainRoutePairs : List TrainRoutePair)
    (shouldFocusOnFirstTrain : Bool) (shouldLabelTrain : Train → Bool) : LineRender α :=
  if trainRoutePairs.length = 0 then
    .emptyNotice
      (if line.name = "Red" then "New Red Line trains are expected later in 2020."
       else "No new trains on the " ++ line.name ++ " Line right now.")
  else
    .svgScene (renderViewboxForBoundsCall bounds ⟨500, 5⟩)
      (renderRelativeStyles (viewboxStrWidth (renderViewboxForBoundsCall bounds ⟨500, 5⟩))
        (viewboxStrHeight (renderViewboxForBoundsCall bounds ⟨500, 5⟩)))
      (renderTrains shouldFocusOnFirstTrain shouldLabelTrain trainRoutePairs stationPositions)

/-! ### Helper lemmas -/

/-- A list containing no occurrence of `pat` is unchanged by `replaceFirst`. -/
theorem replaceFirst_of_not_occurs {pat repl : List Char} :
    ∀ {s : List Char}, occursIn pat s = false → replaceFirst pat repl s = s
  | [], h => by
      simp only [occursIn] at h
      simp [replaceFirst, h]
  | c :: rest, h => by
      simp only [occursIn, Bool.or_eq_false_iff] at h
      simp [replaceFirst, h.1, replaceFirst_of_not_occurs h.2]

/-- A name containing none of the three patterns passes through
`abbreviateStationName` unchanged. -/
theorem abbreviateStationName_of_mentionsNoPattern {s : String}
    (h : mentionsNoPattern s) : abbreviateStationName s = s := by
  obtain ⟨h1, h2, h3⟩ := h
  have e1 : replaceFirstStr "Boston College" "B.C." s = s := by
    unfold replaceFirstStr
    rw [replaceFirst_of_not_occurs h1]
  have e2 : replaceFirstStr "Hynes Convention Center" "Hynes" s = s := by
    unfold replaceFirstStr
    rw [replaceFirst_of_not_occurs h2]
  have e3 : replaceFirstStr "Heath Street" "Heath" s = s := by
    unfold replaceFirstStr
    rw [replaceFirst_of_not_occurs h3]
  unfold abbreviateStationName
  rw [e1, e2, e3]

/-! ### Claim theorems -/

/-- C2: for every bounds `b`, `renderViewboxForBounds b` has
`minX = left - 50`, `minY = top - 5`, `width = right - left + 100` and
`height = bottom - top + 15`; whenever `left ≤ right` and `top ≤ bottom`,
width and height are strictly positive. -/
theorem renderViewboxForBounds_spec (b : Bounds α) :
    (renderViewboxForBounds b).minX = b.left - 50 ∧
    (renderViewboxForBounds b).minY = b.top - 5 ∧
    (renderViewboxForBounds b).width = b.right - b.left + 100 ∧
    (renderViewboxForBounds b).height = b.bottom - b.top + 15 ∧
    (b.left ≤ b.right → 0 < (renderViewboxForBounds b).width) ∧
    (b.top ≤ b.bottom → 0 < (renderViewboxForBounds b).height) := by
  refine ⟨rfl, rfl, ?_, ?_, ?_, ?_⟩
  · show b.right - b.left + (50 : α) * 2 = b.right - b.left + 100
    norm_num
  · show b.bottom - b.top + (5 : α) + 10 = b.bottom - b.top + 15
    ring
  · intro h
    have h1 : (0 : α) ≤ b.right - b.left := sub_nonneg.mpr h
    exact add_pos_of_nonneg_of_pos h1 (by norm_num : (0 : α) < 50 * 2)
  · intro h
    have h1 : (0 : α) ≤ b.bottom - b.top := sub_nonneg.mpr h
    have h2 : (0 : α) ≤ b.bottom - b.top + 5 := add_nonneg h1 (by norm_num)
    exact add_pos_of_nonneg_of_pos h2 (by norm_num : (0 : α) < 10)

/-- Witness for C2 at concrete integer bounds with `left ≤ right` and
`top ≤ bottom`. -/
theorem renderViewboxForBounds_spec_witness :
    (0 : ℤ) ≤ 20 ∧ (0 : ℤ) ≤ 10 ∧
    0 < (renderViewboxForBounds (⟨0, 10, 0, 20⟩ : Bounds ℤ)).width ∧
    0 < (renderViewboxForBounds (⟨0, 10, 0, 20⟩ : Bounds ℤ)).height := by
  refine ⟨by decide, by decide, ?_, ?_⟩
  · exact (renderViewboxForBounds_spec (⟨0, 10, 0, 20⟩ : Bounds ℤ)).2.2.2.2.1 (by decide)
  · exact (renderViewboxForBounds_spec (⟨0, 10, 0, 20⟩ : Bounds ℤ)).2.2.2.2.2 (by decide)

/-- C9: the call site passes an options object, but the function declares
one parameter, so any options argument yields the same viewbox as the
one-argument call, with the hard-coded paddings 50 (left/right), 5 (top)
and 10 (bottom). -/
theorem renderViewboxForBoundsCall_ignores_opts (b : Bounds α)
    (opts opts' : PaddingOpts α) :
    renderViewboxForBoundsCall b opts = renderViewboxForBounds b ∧
    renderViewboxForBoundsCall b opts = renderViewboxForBoundsCall b opts' ∧
    (renderViewboxForBoundsCall b ⟨500, 5⟩).minX = b.left - 50 ∧
    (renderViewboxForBoundsCall b ⟨500, 5⟩).minY = b.top - 5 ∧
    (renderViewboxForBoundsCall b ⟨500, 5⟩).width = b.right - b.left + 50 * 2 ∧
    (renderViewboxForBoundsCall b ⟨500, 5⟩).height = b.bottom - b.top + 5 + 10 :=
  ⟨rfl, rfl, rfl, rfl, rfl, rfl⟩

/-- C7 counterexample: sorting two out-of-order pairs leaves the caller's
array holding a different sequence than before the call — the input is not
left unchanged. -/
theorem pairsAfterSortCall_mutates :
    pairsAfterSortCall [⟨⟨"t1", "r", "A"⟩, "r"⟩, ⟨⟨"t2", "r", "B"⟩, "r"⟩]
        ([("A", ⟨3, 4⟩), ("B", ⟨0, 1⟩)] : StationPositions ℤ) ≠
      [⟨⟨"t1", "r", "A"⟩, "r"⟩, ⟨⟨"t2", "r", "B"⟩, "r"⟩] := by decide

/-- C7 (amended): `Array.prototype.sort` sorts in place, so after the call
the input array holds exactly the returned sorted sequence — a permutation
of the original elements — rather than its original order. -/
theorem pairsAfterSortCall_spec (pairs : List TrainRoutePair)
    (sp : StationPositions α) :
    pairsAfterSortCall pairs sp = sortTrainRoutePairsByDistance pairs sp ∧
    (pairsAfterSortCall pairs sp).Perm pairs :=
  ⟨rfl, List.perm_insertionSort _ _⟩

/-- C5 counterexample: a second application of `abbreviateStationName` can
change the string again, because JavaScript `replace` with a string
pattern replaces only the first occurrence. -/
theorem abbreviateStationName_not_idempotent :
    abbreviateStationName (abbreviateStationName "Boston College Boston College") ≠
      abbreviateStationName "Boston College Boston College" := by decide

/-- C5 (amended): the two concrete abbreviations hold, names containing
none of the replacement patterns are returned unchanged (and are therefore
fixed points of a second application), and both concrete results are fixed
points; unrestricted idempotence fails (see the counterexample). -/
theorem abbreviateStationName_spec :
    abbreviateStationName "Boston College" = "B.C." ∧
    abbreviateStationName "Hynes Convention Center" = "Hynes" ∧
    abbreviateStationName (abbreviateStationName "Boston College") =
      abbreviateStationName "Boston College" ∧
    abbreviateStationName (abbreviateStationName "Hynes Convention Center") =
      abbreviateStationName "Hynes Convention Center" ∧
    (∀ s : String, mentionsNoPattern s → abbreviateStationName s = s) ∧
    (∀ s : String, mentionsNoPattern s →
      abbreviateStationName (abbreviateStationName s) = abbreviateStationName s) := by
  refine ⟨by decide, by decide, by decide, by decide,
    fun s h => abbreviateStationName_of_mentionsNoPattern h, fun s h => ?_⟩
  rw [abbreviateStationName_of_mentionsNoPattern h]
  exact abbreviateStationName_of_mentionsNoPattern h

/-- Witness for C5 (amended) at a pattern-free concrete name. -/
theorem abbreviateStationName_spec_witness :
    mentionsNoPattern "Park Street" ∧
    abbreviateStationName "Park Street" = "Park Street" ∧
    abbreviateStationName (abbreviateStationName "Park Street") =
      abbreviateStationName "Park Street" :=
  ⟨by decide, abbreviateStationName_spec.2.2.2.2.1 "Park Street" (by decide),
    abbreviateStationName_spec.2.2.2.2.2 "Park Street" (by decide)⟩

/-- C4: with zero (train, route) pairs the component renders the fallback
notice and no svg scene; the wording is the Red-specific sentence for a
line named "Red" and the generic sentence with the line's name otherwise. -/
theorem renderLineComponent_empty (line : LineData) (b : Bounds α)
    (sp : StationPositions α) (pairs : List TrainRoutePair)
    (flag : Bool) (lbl : Train → Bool) (hzero : pairs.length = 0) :
    (line.name = "Red" →
      renderLineComponent line b sp pairs flag lbl =
        .emptyNotice "New Red Line trains are expected later in 2020.") ∧
    (line.name ≠ "Red" →
      renderLineComponent line b sp pairs flag lbl =
        .emptyNotice ("No new trains on the " ++ line.name ++ " Line right now.")) ∧
    (∀ (vb : Viewbox α) (st : RelativeStyle) (ms : List TrainMarker),
      renderLineComponent line b sp pairs flag lbl ≠ .svgScene vb st ms) := by
  unfold renderLineComponent
  rw [if_pos hzero]
  exact ⟨fun h => by rw [if_pos h], fun h => by rw [if_neg h],
    fun vb st ms h => LineRender.noConfusion h⟩

/-- Witness for C4: a Red line and an Orange line, each with zero pairs. -/
theorem renderLineComponent_empty_witness :
    renderLineComponent ⟨"Red", "c", "s"⟩ (⟨0, 1, 0, 1⟩ : Bounds ℤ) [] [] true
        (fun _ => false) =
      .emptyNotice "New Red Line trains are expected later in 2020." ∧
    renderLineComponent ⟨"Orange", "c", "s"⟩ (⟨0, 1, 0, 1⟩ : Bounds ℤ) [] [] true
        (fun _ => false) =
      .emptyNotice "No new trains on the Orange Line right now." := by
  constructor
  · exact (renderLineComponent_empty ⟨"Red", "c", "s"⟩ (⟨0, 1, 0, 1⟩ : Bounds ℤ) [] []
      true (fun _ => false) rfl).1 rfl
  · rw [(renderLineComponent_empty ⟨"Orange", "c", "s"⟩ (⟨0, 1, 0, 1⟩ : Bounds ℤ) [] []
      true (fun _ => false) rfl).2.1 (by decide)]
    decide

/-- C1: the returned sequence is a permutation of the input pairs, it is
sorted ascending by the distance key, and the sort is stable: two pairs
with equal computed distances keep their relative input order. -/
theorem sortTrainRoutePairsByDistance_spec (pairs : List TrainRoutePair)
    (sp : StationPositions α) :
    (sortTrainRoutePairsByDistance pairs sp).Perm pairs ∧
    List.Sorted (byDistance sp) (sortTrainRoutePairsByDistance pairs sp) ∧
    (∀ a b : TrainRoutePair, pairDistance sp a = pairDistance sp b →
      [a, b].Sublist pairs →
      [a, b].Sublist (sortTrainRoutePairsByDistance pairs sp)) := by
  refine ⟨List.perm_insertionSort _ _, List.sorted_insertionSort _ _,
    fun a b hk hs => List.pair_sublist_insertionSort ?_ hs⟩
  show pairDistance sp a ≤ pairDistance sp b
  exact le_of_eq hk

/-- Witness for C1: two pairs at equal distance keep their input order in
the sorted output. -/
theorem sortTrainRoutePairsByDistance_spec_witness :
    pairDistance ([("A", ⟨3, 4⟩), ("B", ⟨4, 3⟩)] : StationPositions ℤ)
        ⟨⟨"t1", "r", "A"⟩, "r"⟩ =
      pairDistance ([("A", ⟨3, 4⟩), ("B", ⟨4, 3⟩)] : StationPositions ℤ)
        ⟨⟨"t2", "r", "B"⟩, "r"⟩ ∧
    [⟨⟨"t1", "r", "A"⟩, "r"⟩, ⟨⟨"t2", "r", "B"⟩, "r"⟩].Sublist
      (sortTrainRoutePairsByDistance
        [⟨⟨"t1", "r", "A"⟩, "r"⟩, ⟨⟨"t2", "r", "B"⟩, "r"⟩]
        ([("A", ⟨3, 4⟩), ("B", ⟨4, 3⟩)] : StationPositions ℤ)) :=
  ⟨by decide,
    (sortTrainRoutePairsByDistance_spec
        [⟨⟨"t1", "r", "A"⟩, "r"⟩, ⟨⟨"t2", "r", "B"⟩, "r"⟩]
        ([("A", ⟨3, 4⟩), ("B", ⟨4, 3⟩)] : StationPositions ℤ)).2.2
      ⟨⟨"t1", "r", "A"⟩, "r"⟩ ⟨⟨"t2", "r", "B"⟩, "r"⟩ (by decide) (by decide)⟩

/-- C10: at its only call site `renderRelativeStyles` receives the viewbox
string, whose `width` and `height` properties are `undefined`; the JS
comparison `undefined > undefined` is false, so every rendered svg scene
carries the `{ height: '100%' }` style and the width branch is unreachable
there. -/
theorem lineSvgRelativeStyle_spec (b : Bounds α) (line : LineData)
    (sp : StationPositions α) (pairs : List TrainRoutePair) (flag : Bool)
    (lbl : Train → Bool) (vb : Viewbox α) (st : RelativeStyle)
    (ms : List TrainMarker)
    (hsc : renderLineComponent line b sp pairs flag lbl = .svgScene vb st ms) :
    viewboxStrWidth (renderViewboxForBounds b) = none ∧
    viewboxStrHeight (renderViewboxForBounds b) = none ∧
    jsGt (none : Option α) none = false ∧
    lineSvgRelativeStyle b = .heightFull ∧
    lineSvgRelativeStyle b ≠ .widthFull ∧
    st = .heightFull := by
  refine ⟨rfl, rfl, rfl, rfl, fun h => RelativeStyle.noConfusion h, ?_⟩
  unfold renderLineComponent at hsc
  by_cases hz : pairs.length = 0
  · rw [if_pos hz] at hsc
    exact LineRender.noConfusion hsc
  · rw [if_neg hz] at hsc
    injection hsc with h1 h2 h3
    exact h2.symm

/-- Witness for C10: a concrete svg scene whose relative style is the
height-full branch. -/
theorem lineSvgRelativeStyle_spec_witness :
    lineSvgRelativeStyle (⟨0, 1, 0, 1⟩ : Bounds ℤ) = .heightFull ∧
    RelativeStyle.heightFull = RelativeStyle.heightFull :=
  ⟨(lineSvgRelativeStyle_spec (⟨0, 1, 0, 1⟩ : Bounds ℤ) ⟨"Green", "c", "s"⟩
      (([("A", ⟨3, 4⟩)]) : StationPositions ℤ) [⟨⟨"t", "r", "A"⟩, "r"⟩] true
      (fun _ => false) (renderViewboxForBounds (⟨0, 1, 0, 1⟩ : Bounds ℤ)) .heightFull
      (renderTrains true (fun _ => false) [⟨⟨"t", "r", "A"⟩, "r"⟩]
        (([("A", ⟨3, 4⟩)]) : StationPositions ℤ))
      (by decide)).2.2.2.1,
    rfl⟩

/-- Reduction of `focusOnMountAt` over `renderTrains`: the flag at
position `i` is `shouldFocus && i == 0` when the sorted list has an entry
there, and the default `false` otherwise. -/
theorem focusOnMountAt_renderTrains (flag : Bool) (lbl : Train → Bool)
    (pairs : List TrainRoutePair) (sp : StationPositions α) (i : ℕ) :
    focusOnMountAt (renderTrains flag lbl pairs sp) i =
      ((sortTrainRoutePairsByDistance pairs sp)[i]?.map
        (fun _ => flag && decide (i = 0))).getD false := by
  unfold focusOnMountAt renderTrains
  rw [List.getD_eq_getElem?_getD, List.getElem?_map, List.getElem?_map,
    List.getElem?_enum]
  cases h : (sortTrainRoutePairsByDistance pairs sp)[i]? with
  | none => rfl
  | some p => rfl

/-- C8: when the focus flag is true exactly the marker at index 0 of the
sorted sequence has `focusOnMount = true`; when the flag is false no
marker does. -/
theorem renderTrains_focus (lbl : Train → Bool) (pairs : List TrainRoutePair)
    (sp : StationPositions α) :
    (pairs ≠ [] → focusOnMountAt (renderTrains true lbl pairs sp) 0 = true) ∧
    (∀ i, 0 < i → focusOnMountAt (renderTrains true lbl pairs sp) i = false) ∧
    (∀ i, focusOnMountAt (renderTrains false lbl pairs sp) i = false) := by
  refine ⟨?_, ?_, ?_⟩
  · intro hne
    rw [focusOnMountAt_renderTrains]
    have hlen : 0 < (sortTrainRoutePairsByDistance pairs sp).length := by
      unfold sortTrainRoutePairsByDistance
      rw [List.length_insertionSort]
      exact List.length_pos.mpr hne
    rw [List.getElem?_eq_getElem hlen]
    rfl
  · intro i hi
    rw [focusOnMountAt_renderTrains]
    have hdec : decide (i = 0) = false := decide_eq_false hi.ne'
    cases h : (sortTrainRoutePairsByDistance pairs sp)[i]? with
    | none => rfl
    | some p => simp [hdec]
  · intro i
    rw [focusOnMountAt_renderTrains]
    cases h : (sortTrainRoutePairsByDistance pairs sp)[i]? with
    | none => rfl
    | some p => rfl

/-- Witness for C8 at a concrete two-train line. -/
theorem renderTrains_focus_witness :
    focusOnMountAt (renderTrains true (fun _ => false)
      [⟨⟨"t1", "r", "A"⟩, "r"⟩, ⟨⟨"t2", "r", "B"⟩, "r"⟩]
      (([("A", ⟨3, 4⟩), ("B", ⟨0, 1⟩)]) : StationPositions ℤ)) 0 = true ∧
    focusOnMountAt (renderTrains true (fun _ => false)
      [⟨⟨"t1", "r", "A"⟩, "r"⟩, ⟨⟨"t2", "r", "B"⟩, "r"⟩]
      (([("A", ⟨3, 4⟩), ("B", ⟨0, 1⟩)]) : StationPositions ℤ)) 1 = false ∧
    focusOnMountAt (renderTrains false (fun _ => false)
      [⟨⟨"t1", "r", "A"⟩, "r"⟩, ⟨⟨"t2", "r", "B"⟩, "r"⟩]
      (([("A", ⟨3, 4⟩), ("B", ⟨0, 1⟩)]) : StationPositions ℤ)) 0 = false :=
  ⟨(renderTrains_focus (fun _ => false)
      [⟨⟨"t1", "r", "A"⟩, "r"⟩, ⟨⟨"t2", "r", "B"⟩, "r"⟩]
      (([("A", ⟨3, 4⟩), ("B", ⟨0, 1⟩)]) : StationPositions ℤ)).1 (by decide),
    (renderTrains_focus (fun _ => false)
      [⟨⟨"t1", "r", "A"⟩, "r"⟩, ⟨⟨"t2", "r", "B"⟩, "r"⟩]
      (([("A", ⟨3, 4⟩), ("B", ⟨0, 1⟩)]) : StationPositions ℤ)).2.1 1 (by decide),
    (renderTrains_focus (fun _ => false)
      [⟨⟨"t1", "r", "A"⟩, "r"⟩, ⟨⟨"t2", "r", "B"⟩, "r"⟩]
      (([("A", ⟨3, 4⟩), ("B", ⟨0, 1⟩)]) : StationPositions ℤ)).2.2 0⟩

/-- Every pair in a list yields, at any enumeration start index, a mapped
marker carrying its train. -/
theorem exists_marker_of_mem (flag : Bool) (lbl : Train → Bool) :
    ∀ (n : ℕ) (l : List TrainRoutePair) (p : TrainRoutePair), p ∈ l →
      ∃ m ∈ (l.enumFrom n).map (trainMarkerOf flag lbl), m.train = p.train := by
  intro n l
  induction l generalizing n with
  | nil => exact fun p hp => absurd hp (List.not_mem_nil p)
  | cons q l ih =>
    intro p hp
    rcases List.mem_cons.mp hp with h | h
    · subst h
      exact ⟨trainMarkerOf flag lbl (n, p), List.mem_cons_self _ _, rfl⟩
    · obtain ⟨m, hm, ht⟩ := ih (n + 1) p h
      exact ⟨m, List.mem_cons_of_mem _ hm, ht⟩

/-- C3: a pair whose train's station id is absent from the mapping gets
distance 0, remains present in the sorted output (whose length matches the
input's), comes strictly before every pair of positive distance, and still
yields a rendered train marker; all modelled operations are total
functions, so no input can make them throw. -/
theorem sortTrainRoutePairs_missing_station (sp : StationPositions α)
    (pairs : List TrainRoutePair) (p : TrainRoutePair) (flag : Bool)
    (lbl : Train → Bool)
    (habs : sp.lookup p.train.stationId = none) (hmem : p ∈ pairs) :
    pairDistance sp p = 0 ∧
    p ∈ sortTrainRoutePairsByDistance pairs sp ∧
    (sortTrainRoutePairsByDistance pairs sp).length = pairs.length ∧
    (∀ i j (hi : i < (sortTrainRoutePairsByDistance pairs sp).length)
        (hj : j < (sortTrainRoutePairsByDistance pairs sp).length),
      (sortTrainRoutePairsByDistance pairs sp).get ⟨i, hi⟩ = p →
      0 < pairDistance sp ((sortTrainRoutePairsByDistance pairs sp).get ⟨j, hj⟩) →
      i < j) ∧
    (∃ m ∈ renderTrains flag lbl pairs sp, m.train = p.train) := by
  have hkey : pairDistance sp p = 0 := by
    unfold pairDistance
    rw [habs]
  have hperm := List.perm_insertionSort (byDistance sp) pairs
  have hmem' : p ∈ sortTrainRoutePairsByDistance pairs sp := hperm.mem_iff.mpr hmem
  refine ⟨hkey, hmem', List.length_insertionSort _ _, ?_, ?_⟩
  · intro i j hi hj hip hjpos
    have hsorted : List.Sorted (byDistance sp) (sortTrainRoutePairsByDistance pairs sp) :=
      List.sorted_insertionSort (byDistance sp) pairs
    rcases lt_trichotomy i j with h | h | h
    · exact h
    · exfalso
      subst h
      rw [hip, hkey] at hjpos
      exact lt_irrefl _ hjpos
    · exfalso
      have hfin : (⟨j, hj⟩ : Fin (sortTrainRoutePairsByDistance pairs sp).length) <
          ⟨i, hi⟩ := Fin.mk_lt_mk.mpr h
      have hle := hsorted.rel_get_of_lt hfin
      rw [hip] at hle
      have hle' : pairDistance sp
          ((sortTrainRoutePairsByDistance pairs sp).get ⟨j, hj⟩) ≤ 0 := by
        rw [← hkey]
        exact hle
      exact absurd (lt_of_lt_of_le hjpos hle') (lt_irrefl 0)
  · exact exists_marker_of_mem flag lbl 0 _ p hmem'

/-- Witness for C3: a train referencing the unknown station id "Z". -/
theorem sortTrainRoutePairs_missing_station_witness :
    pairDistance (([("A", ⟨3, 4⟩)]) : StationPositions ℤ)
      ⟨⟨"t2", "r", "Z"⟩, "r"⟩ = 0 ∧
    (⟨⟨"t2", "r", "Z"⟩, "r"⟩ : TrainRoutePair) ∈ sortTrainRoutePairsByDistance
      [⟨⟨"t1", "r", "A"⟩, "r"⟩, ⟨⟨"t2", "r", "Z"⟩, "r"⟩]
      (([("A", ⟨3, 4⟩)]) : StationPositions ℤ) ∧
    (∃ m ∈ renderTrains true (fun _ => false)
        [⟨⟨"t1", "r", "A"⟩, "r"⟩, ⟨⟨"t2", "r", "Z"⟩, "r"⟩]
        (([("A", ⟨3, 4⟩)]) : StationPositions ℤ),
      m.train = (⟨⟨"t2", "r", "Z"⟩, "r"⟩ : TrainRoutePair).train) := by
  have h := sortTrainRoutePairs_missing_station
    (([("A", ⟨3, 4⟩)]) : StationPositions ℤ)
    [⟨⟨"t1", "r", "A"⟩, "r"⟩, ⟨⟨"t2", "r", "Z"⟩, "r"⟩]
    ⟨⟨"t2", "r", "Z"⟩, "r"⟩ true (fun _ => false) (by decide) (by decide)
  exact ⟨h.1, h.2.1, h.2.2.2.2⟩

/-- The fold of `closestStep` seeded with a concrete best entry agrees
with the running-minimum fold that keeps whole entries. -/
theorem foldl_closestStep_eq_runMin (l : List (String × Point α)) :
    ∀ c : String × Point α,
      l.foldl closestStep (some c.1, some (sqDist c.2)) =
        (some (l.foldl runMinStep c).1, some (sqDist (l.foldl runMinStep c).2)) := by
  induction l with
  | nil => intro c; rfl
  | cons e l ih =>
    intro c
    by_cases h : sqDist e.2 < sqDist c.2
    · have h1 : closestStep (some c.1, some (sqDist c.2)) e =
          (some e.1, some (sqDist e.2)) := by
        simp [closestStep, h]
      have h2 : runMinStep c e = e := by simp [runMinStep, h]
      rw [List.foldl_cons, List.foldl_cons, h1, h2]
      exact ih e
    · have h1 : closestStep (some c.1, some (sqDist c.2)) e =
          (some c.1, some (sqDist c.2)) := by
        simp [closestStep, h]
      have h2 : runMinStep c e = c := by simp [runMinStep, h]
      rw [List.foldl_cons, List.foldl_cons, h1, h2]
      exact ih c

/-- The running minimum's key never exceeds the seed's key. -/
theorem sqDist_foldl_runMinStep_le (l : List (String × Point α)) :
    ∀ c : String × Point α, sqDist (l.foldl runMinStep c).2 ≤ sqDist c.2 := by
  induction l with
  | nil => intro c; exact le_refl _
  | cons e l ih =>
    intro c
    rw [List.foldl_cons]
    by_cases h : sqDist e.2 < sqDist c.2
    · have h2 : runMinStep c e = e := by simp [runMinStep, h]
      rw [h2]
      exact le_trans (ih e) (le_of_lt h)
    · have h2 : runMinStep c e = c := by simp [runMinStep, h]
      rw [h2]
      exact ih c

/-- The running minimum's key is minimal over the scanned entries. -/
theorem sqDist_foldl_runMinStep_min (l : List (String × Point α)) :
    ∀ (c : String × Point α) (j : ℕ) (hj : j < l.length),
      sqDist (l.foldl runMinStep c).2 ≤ sqDist (l.get ⟨j, hj⟩).2 := by
  induction l with
  | nil => intro c j hj; exact absurd hj (Nat.not_lt_zero j)
  | cons e l ih =>
    intro c j hj
    rw [List.foldl_cons]
    cases j with
    | zero =>
      show sqDist (l.foldl runMinStep (runMinStep c e)).2 ≤ sqDist e.2
      refine le_trans (sqDist_foldl_runMinStep_le l (runMinStep c e)) ?_
      by_cases h : sqDist e.2 < sqDist c.2
      · have h2 : runMinStep c e = e := by simp [runMinStep, h]
        rw [h2]
      · have h2 : runMinStep c e = c := by simp [runMinStep, h]
        rw [h2]
        exact not_lt.mp h
    | succ j =>
      exact ih (runMinStep c e) j (Nat.lt_of_succ_lt_succ hj)

/-- Case analysis of the running minimum: either the seed survives (no
entry is strictly closer), or the result is an entry strictly closer than
the seed, minimal overall and strictly closer than every entry before it. -/
theorem foldl_runMinStep_cases (l : List (String × Point α)) :
    ∀ c : String × Point α,
      l.foldl runMinStep c = c ∨
      ∃ i, ∃ hi : i < l.length,
        l.foldl runMinStep c = l.get ⟨i, hi⟩ ∧
        sqDist (l.foldl runMinStep c).2 < sqDist c.2 ∧
        ∀ j (hj : j < l.length), j < i →
          sqDist (l.foldl runMinStep c).2 < sqDist (l.get ⟨j, hj⟩).2 := by
  induction l with
  | nil => intro c; exact Or.inl rfl
  | cons e l ih =>
    intro c
    rw [List.foldl_cons]
    by_cases h : sqDist e.2 < sqDist c.2
    · have h2 : runMinStep c e = e := by simp [runMinStep, h]
      rw [h2]
      rcases ih e with h0 | ⟨i, hi, heq, hlt, hstrict⟩
      · right
        refine ⟨0, Nat.succ_pos _, h0, ?_, ?_⟩
        · rw [h0]; exact h
        · intro j hj hj0; exact absurd hj0 (Nat.not_lt_zero j)
      · right
        refine ⟨i + 1, Nat.succ_lt_succ hi, heq, lt_trans hlt h, ?_⟩
        intro j hj hj0
        cases j with
        | zero => exact hlt
        | succ j =>
          exact hstrict j (Nat.lt_of_succ_lt_succ hj) (Nat.lt_of_succ_lt_succ hj0)
    · have h2 : runMinStep c e = c := by simp [runMinStep, h]
      rw [h2]
      rcases ih c with h0 | ⟨i, hi, heq, hlt, hstrict⟩
      · exact Or.inl h0
      · right
        refine ⟨i + 1, Nat.succ_lt_succ hi, heq, hlt, ?_⟩
        intro j hj hj0
        cases j with
        | zero => exact lt_of_lt_of_le hlt (not_lt.mp h)
        | succ j =>
          exact hstrict j (Nat.lt_of_succ_lt_succ hj) (Nat.lt_of_succ_lt_succ hj0)

/-- C6: the empty mapping yields null; a singleton mapping yields its id
whatever the distance; in general the result is the id of the first entry
(in enumeration order) attaining the minimal distance — the strict
less-than comparison lets the earliest minimal entry win ties. -/
theorem findClosestStationToTop_spec :
    (findClosestStationToTop ([] : StationPositions α) = none) ∧
    (∀ (id : String) (p : Point α),
      findClosestStationToTop [(id, p)] = some id) ∧
    (∀ sp : StationPositions α, sp ≠ [] →
      ∃ i, ∃ hi : i < sp.length,
        findClosestStationToTop sp = some (sp.get ⟨i, hi⟩).1 ∧
        (∀ j (hj : j < sp.length),
          sqDist (sp.get ⟨i, hi⟩).2 ≤ sqDist (sp.get ⟨j, hj⟩).2) ∧
        (∀ j (hj : j < sp.length), j < i →
          sqDist (sp.get ⟨i, hi⟩).2 < sqDist (sp.get ⟨j, hj⟩).2)) := by
  refine ⟨rfl, fun id p => rfl, ?_⟩
  intro sp hne
  cases sp with
  | nil => exact absurd rfl hne
  | cons e l =>
    have hfc : findClosestStationToTop (e :: l) =
        some (l.foldl runMinStep e).1 := by
      unfold findClosestStationToTop
      rw [List.foldl_cons]
      have h0 : closestStep ((none : Option String), (none : Option α)) e =
          (some e.1, some (sqDist e.2)) := rfl
      rw [h0, foldl_closestStep_eq_runMin l e]
    rcases foldl_runMinStep_cases l e with h0 | ⟨i, hi, heq, hlt, hstrict⟩
    · refine ⟨0, Nat.succ_pos _, ?_, ?_, ?_⟩
      · rw [hfc, h0]
        rfl
      · intro j hj
        cases j with
        | zero => exact le_refl _
        | succ j =>
          show sqDist e.2 ≤ sqDist (l.get ⟨j, Nat.lt_of_succ_lt_succ hj⟩).2
          have hm := sqDist_foldl_runMinStep_min l e j (Nat.lt_of_succ_lt_succ hj)
          rw [h0] at hm
          exact hm
      · intro j hj hj0
        exact absurd hj0 (Nat.not_lt_zero j)
    · refine ⟨i + 1, Nat.succ_lt_succ hi, ?_, ?_, ?_⟩
      · rw [hfc, heq]
        rfl
      · intro j hj
        cases j with
        | zero =>
          show sqDist (l.get ⟨i, hi⟩).2 ≤ sqDist e.2
          rw [← heq]
          exact le_of_lt hlt
        | succ j =>
          show sqDist (l.get ⟨i, hi⟩).2 ≤ sqDist (l.get ⟨j, Nat.lt_of_succ_lt_succ hj⟩).2
          rw [← heq]
          exact sqDist_foldl_runMinStep_min l e j (Nat.lt_of_succ_lt_succ hj)
      · intro j hj hj0
        cases j with
        | zero =>
          show sqDist (l.get ⟨i, hi⟩).2 < sqDist e.2
          rw [← heq]
          exact hlt
        | succ j =>
          show sqDist (l.get ⟨i, hi⟩).2 < sqDist (l.get ⟨j, Nat.lt_of_succ_lt_succ hj⟩).2
          rw [← heq]
          exact hstrict j (Nat.lt_of_succ_lt_succ hj) (Nat.lt_of_succ_lt_succ hj0)

/-- Witness for C6: the empty mapping, a singleton mapping, and a
two-entry mapping whose closer station is the second entry. -/
theorem findClosestStationToTop_spec_witness :
    findClosestStationToTop ([] : StationPositions ℤ) = none ∧
    findClosestStationToTop (([("A", ⟨5, 12⟩)]) : StationPositions ℤ) = some "A" ∧
    (∃ i, ∃ hi : i < (([("A", ⟨3, 4⟩), ("B", ⟨0, 1⟩)]) : StationPositions ℤ).length,
      findClosestStationToTop (([("A", ⟨3, 4⟩), ("B", ⟨0, 1⟩)]) : StationPositions ℤ) =
        some (((([("A", ⟨3, 4⟩), ("B", ⟨0, 1⟩)]) : StationPositions ℤ).get ⟨i, hi⟩).1) ∧
      (∀ j (hj : j < (([("A", ⟨3, 4⟩), ("B", ⟨0, 1⟩)]) : StationPositions ℤ).length),
        sqDist (((([("A", ⟨3, 4⟩), ("B", ⟨0, 1⟩)]) : StationPositions ℤ).get ⟨i, hi⟩).2) ≤
          sqDist (((([("A", ⟨3, 4⟩), ("B", ⟨0, 1⟩)]) : StationPositions ℤ).get ⟨j, hj⟩).2)) ∧
      (∀ j (hj : j < (([("A", ⟨3, 4⟩), ("B", ⟨0, 1⟩)]) : StationPositions ℤ).length),
        j < i →
        sqDist (((([("A", ⟨3, 4⟩), ("B", ⟨0, 1⟩)]) : StationPositions ℤ).get ⟨i, hi⟩).2) <
          sqDist (((([("A", ⟨3, 4⟩), ("B", ⟨0, 1⟩)]) : StationPositions ℤ).get ⟨j, hj⟩).2))) :=
  ⟨findClosestStationToTop_spec.1,
    findClosestStationToTop_spec.2.1 "A" ⟨5, 12⟩,
    findClosestStationToTop_spec.2.2
      (([("A", ⟨3, 4⟩), ("B", ⟨0, 1⟩)]) : StationPositions ℤ) (by decide)⟩

end LineJs
